import Mathlib

/-!
# Playback controller of the music-player frontend, shallowly embedded

This file embeds the client-side playback controller (`MusicPlayer` in
`public/js/player.js`) as pure Lean definitions and proves properties of its
queue handling, repeat policy, volume handling and time formatting.

Modelling conventions:
* JavaScript numbers that only ever hold finitely-representable fractions in
  the reachable states of interest (volumes, playback positions) are modelled
  as rationals `ℚ`; `currentIndex` is an `Int` because the idle controller
  stores `-1`.
* `NaN` inputs (an unknown duration) are modelled as `Option.none`.
* DOM/UI writes (icon text, slider position, button state) are not part of the
  model; user-visible toasts and the dispatched `trackChanged` custom event are
  recorded in an explicit event list, in the order the code produces them.
* The one asynchronous operation, `audio.play()`, is modelled by a boolean
  `ok` parameter giving the eventual outcome of the playback request, and the
  moment its promise settles is recorded as an `Ev.playSettled` event, so that
  the relative order of the settlement and the `trackChanged` dispatch is
  observable in the event trace.
* JavaScript `%` (truncating remainder) is `Int.tmod`.
-/

/-- A track descriptor as consumed from the library API:
`{id, title, artist, url, duration}`. -/
structure Track where
  id : String
  title : String
  artist : String
  url : String
  duration : ℚ
deriving DecidableEq, Repr

/-- The slice of the HTML5 audio element the controller reads and writes:
the bound source URL, the output volume, and the playback position. -/
structure AudioState where
  src : String
  volume : ℚ
  currentTime : ℚ
deriving DecidableEq, Repr

/-- `repeatMode` field: one of the strings `'off'`, `'all'`, `'one'`. -/
inductive RepeatMode where
  | off
  | all
  | one
deriving DecidableEq, Repr

/-- Observable effects of a controller operation, in emission order:
`toast msg kind` models a `showToast(msg, kind)` call, `trackChanged t`
models dispatching the `trackChanged` custom event with detail `t`, and
`playSettled ok` marks the settlement of the awaited `audio.play()` promise. -/
inductive Ev where
  | toast (msg : String) (kind : String)
  | trackChanged (t : Option Track)
  | playSettled (ok : Bool)
deriving DecidableEq, Repr

/-- The mutable state of a `MusicPlayer` instance (`constructor`, lines 8-42):
`currentTrack`, `queue`, `currentIndex`, `isPlaying`, `isShuffled`,
`repeatMode`, `volume`, plus the owned audio element. -/
structure PlayerState where
  audio : AudioState
  currentTrack : Option Track
  queue : List Track
  currentIndex : Int
  isPlaying : Bool
  isShuffled : Bool
  repeatMode : RepeatMode
  volume : ℚ
deriving DecidableEq, Repr

/-- Stand-in for the `undefined` a JavaScript out-of-range queue read would
yield; every reachable read in this development is in range, so this value
never shows up in a provable statement. -/
def defaultTrack : Track :=
  { id := "", title := "", artist := "", url := "", duration := 0 }

namespace MusicPlayer

/-- `initializePlayer` (lines 48-55): copies the stored `volume` field onto the
audio element (slider/controls writes are UI-only). -/
def initializePlayer (s : PlayerState) : PlayerState :=
  { s with audio := { s.audio with volume := s.volume } }

/-- The state built by the `constructor` (lines 8-42) and then
`initializePlayer`: no track, empty queue, `currentIndex = -1`, not playing,
shuffle off, repeat off, `volume = 0.8`; a fresh audio element has volume 1
and no source. -/
def initState : PlayerState :=
  initializePlayer
    { audio := { src := "", volume := 1, currentTime := 0 }
      currentTrack := none
      queue := []
      currentIndex := -1
      isPlaying := false
      isShuffled := false
      repeatMode := RepeatMode.off
      volume := 4/5 }

/-- `play()` (lines 131-140), with the eventual outcome of the awaited
`audio.play()` request passed in as `ok`.  On success `isPlaying := true`;
on failure the catch block only logs and toasts —  `isPlaying` is left as it
was.  The settlement of the promise is recorded as an event. -/
def play (ok : Bool) (s : PlayerState) : PlayerState × List Ev :=
  if ok then
    ({ s with isPlaying := true }, [Ev.playSettled true])
  else
    (s, [Ev.playSettled false, Ev.toast "Error playing audio" "error"])

/-- `pause()` (lines 142-146): `audio.pause()` and `isPlaying := false`. -/
def pause (s : PlayerState) : PlayerState :=
  { s with isPlaying := false }

/-- `togglePlayPause()` (lines 148-154). -/
def togglePlayPause (ok : Bool) (s : PlayerState) : PlayerState × List Ev :=
  if s.isPlaying then (pause s, []) else play ok s

/-- The synchronous prefix of `loadTrack(track, queue, startIndex)`
(lines 95-111): install the queue (a fresh copy `[...queue]`, element-wise
equal) or a singleton queue, set `currentIndex` and `currentTrack`, bind
`audio.src` to the track URL and call `audio.load()` (which resets the
playback position to 0).  Execution then suspends at `await this.play()`. -/
def loadTrackSync (track : Track) (queue : Option (List Track))
    (startIndex : Nat) (s : PlayerState) : PlayerState :=
  let s1 :=
    match queue with
    | some q => { s with queue := q, currentIndex := (startIndex : Int) }
    | none => { s with queue := [track], currentIndex := 0 }
  { s1 with
    currentTrack := some track
    audio := { s1.audio with
               src := "http://localhost:3000" ++ track.url
               currentTime := 0 } }

/-- The continuation of `loadTrack` after `await this.play()` has settled
(lines 121-123): dispatch the `trackChanged` custom event carrying whatever
`this.currentTrack` holds at dispatch time. -/
def loadTrackCont (s : PlayerState) : PlayerState × List Ev :=
  (s, [Ev.trackChanged s.currentTrack])

/-- Everything `loadTrack` does from the point where it awaits `this.play()`:
the play request settles with outcome `ok` (running `play`'s success or catch
branch), then the `trackChanged` dispatch runs. -/
def loadTrackResume (ok : Bool) (s : PlayerState) : PlayerState × List Ev :=
  let r1 := play ok s
  let r2 := loadTrackCont r1.1
  (r2.1, r1.2 ++ r2.2)

/-- `loadTrack(track, queue = null, startIndex = 0)` (lines 95-129), run to
completion with the play request eventually settling with outcome `ok`.
`play` catches its own rejection, so the outer catch block is not reached on a
playback failure and the `trackChanged` dispatch runs in both outcomes. -/
def loadTrack (track : Track) (queue : Option (List Track)) (startIndex : Nat)
    (ok : Bool) (s : PlayerState) : PlayerState × List Ev :=
  loadTrackResume ok (loadTrackSync track queue startIndex s)

/-- `playNext()` (lines 156-168), with the play-request outcome `ok` and, for
the shuffled branch, the value `r` of `Math.random()` (so the chosen index is
`⌊r * queue.length⌋`).  Advances `currentIndex` and re-loads via `loadTrack`
with the existing queue passed back in. -/
def playNext (r : ℚ) (ok : Bool) (s : PlayerState) : PlayerState × List Ev :=
  if s.queue.length = 0 then (s, [])
  else
    let n : Int := s.queue.length
    let newIdx : Int :=
      if s.isShuffled then ⌊r * (n : ℚ)⌋
      else (s.currentIndex + 1).tmod n
    let s1 := { s with currentIndex := newIdx }
    loadTrack (s1.queue.getD newIdx.toNat defaultTrack) (some s1.queue)
      newIdx.toNat ok s1

/-- `playPrevious()` (lines 170-182): no-op on an empty queue; restart the
current track when more than 3 seconds have elapsed; otherwise step
`currentIndex` back cyclically and re-load via `loadTrack`. -/
def playPrevious (ok : Bool) (s : PlayerState) : PlayerState × List Ev :=
  if s.queue.length = 0 then (s, [])
  else if 3 < s.audio.currentTime then
    ({ s with audio := { s.audio with currentTime := 0 } }, [])
  else
    let n : Int := s.queue.length
    let newIdx : Int := (s.currentIndex - 1 + n).tmod n
    let s1 := { s with currentIndex := newIdx }
    loadTrack (s1.queue.getD newIdx.toNat defaultTrack) (some s1.queue)
      newIdx.toNat ok s1

/-- `setVolume(value)` (lines 194-198): clamp to [0,1], store it, and apply it
to the audio output. -/
def setVolume (value : ℚ) (s : PlayerState) : PlayerState :=
  let v := max 0 (min 1 value)
  { s with volume := v, audio := { s.audio with volume := v } }

/-- `toggleMute()` (lines 200-209): output volume goes to 0 when audible,
otherwise back to the stored `volume` field; the stored field itself is never
written here. -/
def toggleMute (s : PlayerState) : PlayerState :=
  if 0 < s.audio.volume then { s with audio := { s.audio with volume := 0 } }
  else { s with audio := { s.audio with volume := s.volume } }

/-- `toggleShuffle()` (lines 226-231): flip the flag and toast. -/
def toggleShuffle (s : PlayerState) : PlayerState × List Ev :=
  let s1 := { s with isShuffled := !s.isShuffled }
  (s1, [Ev.toast (if s1.isShuffled then "Shuffle enabled" else "Shuffle disabled") "info"])

/-- The successor in the cycle `['off', 'all', 'one']` used by
`cycleRepeatMode`. -/
def nextRepeatMode : RepeatMode → RepeatMode
  | RepeatMode.off => RepeatMode.all
  | RepeatMode.all => RepeatMode.one
  | RepeatMode.one => RepeatMode.off

/-- `cycleRepeatMode()` (lines 233-248): advance `off → all → one → off` and
toast the new mode's title. -/
def cycleRepeatMode (s : PlayerState) : PlayerState × List Ev :=
  let s1 := { s with repeatMode := nextRepeatMode s.repeatMode }
  let title :=
    match s1.repeatMode with
    | RepeatMode.off => "Repeat Off"
    | RepeatMode.all => "Repeat All"
    | RepeatMode.one => "Repeat One"
  (s1, [Ev.toast ("Repeat: " ++ title) "info"])

/-- `handleTrackEnd()` (lines 250-263), the `ended`-event handler: repeat-one
restarts and plays the same track; repeat-all or a non-final position plays
the next track; otherwise pause and rewind. -/
def handleTrackEnd (r : ℚ) (ok : Bool) (s : PlayerState) : PlayerState × List Ev :=
  if s.repeatMode = RepeatMode.one then
    play ok { s with audio := { s.audio with currentTime := 0 } }
  else if s.repeatMode = RepeatMode.all ∨ s.currentIndex < (s.queue.length : Int) - 1 then
    playNext r ok s
  else
    (pause { s with audio := { s.audio with currentTime := 0 } }, [])

/-- The `ArrowUp` case of `handleKeyboard` (lines 381-385):
`setVolume(Math.min(1, audio.volume + 0.1))`. -/
def handleKeyArrowUp (s : PlayerState) : PlayerState :=
  setVolume (min 1 (s.audio.volume + 1/10)) s

/-- The `ArrowDown` case of `handleKeyboard` (lines 386-390):
`setVolume(Math.max(0, audio.volume - 0.1))`. -/
def handleKeyArrowDown (s : PlayerState) : PlayerState :=
  setVolume (max 0 (s.audio.volume - 1/10)) s

/-- JavaScript's truncating `%` on fractional operands:
`a % b = a - b * truncate(a / b)`. -/
def jsRem (a b : ℚ) : ℚ :=
  a - b * (if 0 ≤ a / b then (⌊a / b⌋ : ℚ) else (⌈a / b⌉ : ℚ))

/-- `secs.toString().padStart(2, '0')`. -/
def pad2 (str : String) : String :=
  if str.length ≥ 2 then str
  else if str.length = 1 then "0" ++ str
  else "00"

/-- `formatTime(seconds)` (lines 413-419).  `none` models a `NaN` argument
(unknown duration); `!seconds` also sends 0 to `"0:00"`. -/
def formatTime (seconds : Option ℚ) : String :=
  match seconds with
  | none => "0:00"
  | some q =>
    if q = 0 then "0:00"
    else
      let mins : Int := ⌊q / 60⌋
      let secs : Int := ⌊jsRem q 60⌋
      toString mins ++ ":" ++ pad2 (toString secs)

end MusicPlayer

/-- The implicit invariant of claim C10: the audio output volume is either 0
(muted) or exactly the controller's stored `volume` field. -/
def VolInv (s : PlayerState) : Prop :=
  s.audio.volume = 0 ∨ s.audio.volume = s.volume

/-- Claim C7's invariant: `currentIndex` is `-1` or a valid queue index. -/
def IndexInv (s : PlayerState) : Prop :=
  s.currentIndex = -1 ∨ (0 ≤ s.currentIndex ∧ s.currentIndex < s.queue.length)

/-- Iterated `playNext` with a per-call play outcome `oks k` and
`Math.random` irrelevant (shuffle stays off along the way). -/
def playNextIter (oks : Nat → Bool) (s : PlayerState) : Nat → PlayerState
  | 0 => s
  | k+1 => (MusicPlayer.playNext 0 (oks k) (playNextIter oks s k)).1

/-- Recognizer for toast events. -/
def evIsToast : Ev → Bool
  | Ev.toast _ _ => true
  | _ => false

/-- Recognizer for the `trackChanged` dispatch. -/
def evIsTrackChanged : Ev → Bool
  | Ev.trackChanged _ => true
  | _ => false

/-- Recognizer for the settlement of the awaited play request. -/
def evIsPlaySettled : Ev → Bool
  | Ev.playSettled _ => true
  | _ => false

/-- `emittedBefore p q l` holds when, scanning the trace `l` left to right,
an event satisfying `p` shows up strictly before one satisfying `q`. -/
def emittedBefore (p q : Ev → Bool) : List Ev → Bool
  | [] => false
  | e :: l => if p e then l.any q else if q e then false else emittedBefore p q l

/-- Concrete track descriptors used in the witness and counterexample states. -/
def trackA : Track :=
  { id := "a", title := "Alpha", artist := "Ann", url := "/audio/a.mp3", duration := 100 }

/-- Second concrete track. -/
def trackB : Track :=
  { id := "b", title := "Beta", artist := "Ben", url := "/audio/b.mp3", duration := 120 }

/-- Third concrete track. -/
def trackC : Track :=
  { id := "c", title := "Gamma", artist := "Cyd", url := "/audio/c.mp3", duration := 90 }

/-- Fourth concrete track. -/
def trackD : Track :=
  { id := "d", title := "Delta", artist := "Dee", url := "/audio/d.mp3", duration := 80 }

/-- A controller state holding the queue `[A, B, C]` at its last position,
shuffle off. -/
def stateABC : PlayerState :=
  { MusicPlayer.initState with
    queue := [trackA, trackB, trackC]
    currentIndex := 2
    currentTrack := some trackC }

section Helpers

open MusicPlayer

/-- Dividing by 60 before flooring is flooring and then integer-dividing. -/
lemma floor_div_sixty (q : ℚ) : ⌊q / 60⌋ = ⌊q⌋ / 60 := by
  rw [Int.floor_eq_iff]
  constructor
  · rw [le_div_iff₀ (by norm_num : (0:ℚ) < 60)]
    have h0 : (⌊q⌋ / 60 * 60 : ℤ) ≤ ⌊q⌋ := by omega
    have h1 : ((⌊q⌋ / 60 * 60 : ℤ) : ℚ) ≤ (⌊q⌋ : ℚ) := by exact_mod_cast h0
    calc ((⌊q⌋ / 60 : ℤ) : ℚ) * 60 = ((⌊q⌋ / 60 * 60 : ℤ) : ℚ) := by push_cast; ring
    _ ≤ (⌊q⌋ : ℚ) := h1
    _ ≤ q := Int.floor_le q
  · rw [div_lt_iff₀ (by norm_num : (0:ℚ) < 60)]
    have h0 : ⌊q⌋ + 1 ≤ (⌊q⌋ / 60 + 1) * 60 := by omega
    have h1 : (⌊q⌋ : ℚ) + 1 ≤ (((⌊q⌋ / 60 + 1) * 60 : ℤ) : ℚ) := by exact_mod_cast h0
    calc q < (⌊q⌋ : ℚ) + 1 := Int.lt_floor_add_one q
    _ ≤ (((⌊q⌋ / 60 + 1) * 60 : ℤ) : ℚ) := h1
    _ = (((⌊q⌋ / 60 : ℤ) : ℚ) + 1) * 60 := by push_cast; ring

/-- On nonnegative input, the JavaScript remainder by 60 floors to `⌊q⌋ % 60`. -/
lemma floor_jsRem_sixty (q : ℚ) (hq : 0 ≤ q) : ⌊jsRem q 60⌋ = ⌊q⌋ % 60 := by
  have hpos : 0 ≤ q / 60 := by positivity
  rw [jsRem, if_pos hpos]
  have : q - 60 * (⌊q / 60⌋ : ℚ) = q - ((60 * ⌊q / 60⌋ : ℤ) : ℚ) := by push_cast; ring
  rw [this, Int.floor_sub_int, floor_div_sixty]
  omega

end Helpers

/-- C8: `formatTime` maps seconds to `minutes:seconds` with the whole minutes,
the whole remaining seconds zero-padded to two digits, `NaN` to `"0:00"`, and
satisfies the spec's four sample equations. -/
theorem c8_formatTime_spec :
    (∀ q : ℚ, 0 < q →
      MusicPlayer.formatTime (some q) =
        toString (⌊q⌋ / 60) ++ ":" ++ MusicPlayer.pad2 (toString (⌊q⌋ % 60))) ∧
    MusicPlayer.formatTime (some 0) = "0:00" ∧
    MusicPlayer.formatTime (some 65) = "1:05" ∧
    MusicPlayer.formatTime none = "0:00" ∧
    MusicPlayer.formatTime (some 3600) = "60:00" := by
  have hgen : ∀ q : ℚ, 0 < q →
      MusicPlayer.formatTime (some q) =
        toString (⌊q⌋ / 60) ++ ":" ++ MusicPlayer.pad2 (toString (⌊q⌋ % 60)) := by
    intro q hq
    rw [MusicPlayer.formatTime, if_neg (ne_of_gt hq), floor_div_sixty,
      floor_jsRem_sixty q hq.le]
  refine ⟨hgen, by norm_num [MusicPlayer.formatTime], ?_, rfl, ?_⟩
  · rw [hgen 65 (by norm_num)]
    norm_num
    rfl
  · rw [hgen 3600 (by norm_num)]
    norm_num
    rfl

section StateHelpers

open MusicPlayer

/-- The state `play` returns: on success only `isPlaying` flips to `true`;
on failure the state is untouched. -/
lemma play_fst (ok : Bool) (s : PlayerState) :
    (play ok s).1 = if ok then { s with isPlaying := true } else s := by
  cases ok <;> rfl

/-- `play` emits exactly one toast on failure and none on success. -/
lemma play_snd (ok : Bool) (s : PlayerState) :
    (play ok s).2 =
      if ok then [Ev.playSettled true]
      else [Ev.playSettled false, Ev.toast "Error playing audio" "error"] := by
  cases ok <;> rfl

/-- The state `loadTrack` ends in is the state after the synchronous prefix
with the play outcome applied; the `trackChanged` dispatch adds no mutation. -/
lemma loadTrack_fst (t : Track) (q : Option (List Track)) (i : Nat) (ok : Bool)
    (s : PlayerState) :
    (loadTrack t q i ok s).1 = (play ok (loadTrackSync t q i s)).1 := rfl

/-- `loadTrack` leaves both volume fields alone. -/
lemma loadTrack_volumes (t : Track) (q : Option (List Track)) (i : Nat) (ok : Bool)
    (s : PlayerState) :
    (loadTrack t q i ok s).1.audio.volume = s.audio.volume ∧
    (loadTrack t q i ok s).1.volume = s.volume := by
  rw [loadTrack_fst, play_fst]
  cases q <;> cases ok <;> exact ⟨rfl, rfl⟩

/-- `playNext` leaves both volume fields alone. -/
lemma playNext_volumes (r : ℚ) (ok : Bool) (s : PlayerState) :
    (playNext r ok s).1.audio.volume = s.audio.volume ∧
    (playNext r ok s).1.volume = s.volume := by
  by_cases h : s.queue.length = 0
  · simp [playNext, h]
  · simp only [playNext, if_neg h]
    exact ⟨(loadTrack_volumes _ _ _ _ _).1, (loadTrack_volumes _ _ _ _ _).2⟩

/-- `playPrevious` leaves both volume fields alone. -/
lemma playPrevious_volumes (ok : Bool) (s : PlayerState) :
    (playPrevious ok s).1.audio.volume = s.audio.volume ∧
    (playPrevious ok s).1.volume = s.volume := by
  by_cases h : s.queue.length = 0
  · simp [playPrevious, h]
  · by_cases h3 : 3 < s.audio.currentTime
    · simp [playPrevious, h, h3]
    · simp only [playPrevious, if_neg h, if_neg h3]
      exact ⟨(loadTrack_volumes _ _ _ _ _).1, (loadTrack_volumes _ _ _ _ _).2⟩

/-- `handleTrackEnd` leaves both volume fields alone. -/
lemma handleTrackEnd_volumes (r : ℚ) (ok : Bool) (s : PlayerState) :
    (handleTrackEnd r ok s).1.audio.volume = s.audio.volume ∧
    (handleTrackEnd r ok s).1.volume = s.volume := by
  by_cases h1 : s.repeatMode = RepeatMode.one
  · simp only [handleTrackEnd, if_pos h1, play_fst]
    cases ok <;> exact ⟨rfl, rfl⟩
  · by_cases h2 : s.repeatMode = RepeatMode.all ∨ s.currentIndex < (s.queue.length : Int) - 1
    · simp only [handleTrackEnd, if_neg h1, if_pos h2]
      exact ⟨(playNext_volumes _ _ _).1, (playNext_volumes _ _ _).2⟩
    · simp only [handleTrackEnd, if_neg h1, if_neg h2]
      exact ⟨rfl, rfl⟩

end StateHelpers

section QueueHelpers

open MusicPlayer

/-- What `loadTrack` with an explicit queue leaves in the track/queue fields. -/
lemma loadTrack_some_fields (t : Track) (Q : List Track) (i : Nat) (ok : Bool)
    (s : PlayerState) :
    (loadTrack t (some Q) i ok s).1.queue = Q ∧
    (loadTrack t (some Q) i ok s).1.currentIndex = (i : Int) ∧
    (loadTrack t (some Q) i ok s).1.currentTrack = some t ∧
    (loadTrack t (some Q) i ok s).1.isShuffled = s.isShuffled ∧
    (loadTrack t (some Q) i ok s).1.repeatMode = s.repeatMode ∧
    (loadTrack t (some Q) i ok s).1.audio.currentTime = 0 := by
  rw [loadTrack_fst, play_fst]
  cases ok <;> exact ⟨rfl, rfl, rfl, rfl, rfl, rfl⟩

/-- What `loadTrack` without a queue leaves in the track/queue fields. -/
lemma loadTrack_none_fields (t : Track) (i : Nat) (ok : Bool) (s : PlayerState) :
    (loadTrack t none i ok s).1.queue = [t] ∧
    (loadTrack t none i ok s).1.currentIndex = 0 ∧
    (loadTrack t none i ok s).1.currentTrack = some t := by
  rw [loadTrack_fst, play_fst]
  cases ok <;> exact ⟨rfl, rfl, rfl⟩

/-- One non-shuffled `playNext` call on a non-empty queue: the index advances
to `(currentIndex + 1) tmod n`, the very queue is passed back to `loadTrack`,
and the entry at the new index becomes the current track. -/
lemma playNext_step (r : ℚ) (ok : Bool) (s : PlayerState)
    (hsh : s.isShuffled = false) (hne : s.queue.length ≠ 0)
    (hge : 0 ≤ s.currentIndex + 1) :
    (playNext r ok s).1.currentIndex = (s.currentIndex + 1).tmod (s.queue.length : Int) ∧
    (playNext r ok s).1.queue = s.queue ∧
    (playNext r ok s).1.isShuffled = false ∧
    (playNext r ok s).1.currentTrack =
      some (s.queue.getD ((s.currentIndex + 1).tmod (s.queue.length : Int)).toNat
        defaultTrack) := by
  have hmodnn : 0 ≤ (s.currentIndex + 1).tmod (s.queue.length : Int) :=
    Int.tmod_nonneg _ hge
  simp only [playNext, if_neg hne, hsh, Bool.false_eq_true, if_false]
  refine ⟨?_, ?_, ?_, ?_⟩
  · rw [(loadTrack_some_fields _ _ _ _ _).2.1, Int.toNat_of_nonneg hmodnn]
  · exact (loadTrack_some_fields _ _ _ _ _).1
  · exact (loadTrack_some_fields _ _ _ _ _).2.2.2.1
  · exact (loadTrack_some_fields _ _ _ _ _).2.2.1

lemma emod_succ_absorb (a n : ℤ) : (a % n + 1) % n = (a + 1) % n := by
  conv_rhs => rw [← Int.emod_add_ediv a n]
  rw [add_right_comm, Int.add_mul_emod_self_left]

/-- The cyclic-visit law for repeated non-shuffled `playNext`: after `k`
calls the index is `(start + k) mod n` and the queue is untouched. -/
lemma playNextIter_spec (oks : Nat → Bool) (s : PlayerState)
    (hsh : s.isShuffled = false) (h0 : 0 ≤ s.currentIndex)
    (h1 : s.currentIndex < s.queue.length) :
    ∀ k, (playNextIter oks s k).currentIndex =
        (s.currentIndex + k) % (s.queue.length : Int) ∧
      (playNextIter oks s k).queue = s.queue ∧
      (playNextIter oks s k).isShuffled = false := by
  have hnpos : 0 < (s.queue.length : Int) := lt_of_le_of_lt h0 h1
  have hnne : (s.queue.length : Int) ≠ 0 := ne_of_gt hnpos
  intro k
  induction k with
  | zero =>
    refine ⟨?_, rfl, hsh⟩
    rw [Nat.cast_zero, add_zero, Int.emod_eq_of_lt h0 h1]
    rfl
  | succ k ih =>
    obtain ⟨hik, hqk, hshk⟩ := ih
    have hlen : ((playNextIter oks s k).queue.length : Int) = (s.queue.length : Int) := by
      rw [hqk]
    have hne' : (playNextIter oks s k).queue.length ≠ 0 := by
      intro h
      rw [hqk] at h
      exact hnne (by exact_mod_cast h)
    have hmodnn : 0 ≤ (s.currentIndex + k) % (s.queue.length : Int) :=
      Int.emod_nonneg _ hnne
    have hge : 0 ≤ (playNextIter oks s k).currentIndex + 1 := by
      rw [hik]; omega
    have step := playNext_step 0 (oks k) (playNextIter oks s k) hshk hne' hge
    refine ⟨?_, step.2.1.trans hqk, step.2.2.1⟩
    show (playNextIter oks s (k+1)).currentIndex = _
    rw [playNextIter, step.1, hik, hlen,
      Int.tmod_eq_emod (by omega) (le_of_lt hnpos), emod_succ_absorb]
    push_cast
    ring_nf

end QueueHelpers

section IndexInvHelpers

open MusicPlayer

/-- `IndexInv` only looks at `queue` and `currentIndex`. -/
lemma indexInv_of_fields {s' s : PlayerState} (h : IndexInv s)
    (hq : s'.queue = s.queue) (hi : s'.currentIndex = s.currentIndex) :
    IndexInv s' := by
  rw [IndexInv, hq, hi]
  exact h

/-- `loadTrack` with a queue and an in-range start index restores `IndexInv`. -/
lemma loadTrack_some_indexInv (t : Track) (Q : List Track) (i : Nat) (ok : Bool)
    (s : PlayerState) (hi : i < Q.length) :
    IndexInv (loadTrack t (some Q) i ok s).1 := by
  refine Or.inr ⟨?_, ?_⟩
  · rw [(loadTrack_some_fields t Q i ok s).2.1]
    exact Int.natCast_nonneg i
  · rw [(loadTrack_some_fields t Q i ok s).2.1, (loadTrack_some_fields t Q i ok s).1]
    exact_mod_cast hi

/-- `loadTrack` without a queue restores `IndexInv` (singleton queue, index 0). -/
lemma loadTrack_none_indexInv (t : Track) (i : Nat) (ok : Bool) (s : PlayerState) :
    IndexInv (loadTrack t none i ok s).1 := by
  refine Or.inr ⟨?_, ?_⟩
  · rw [(loadTrack_none_fields t i ok s).2.1]
  · rw [(loadTrack_none_fields t i ok s).2.1, (loadTrack_none_fields t i ok s).1]
    norm_num

/-- `playNext` preserves `IndexInv`, for any play outcome and any
`Math.random` draw in `[0,1)`. -/
lemma playNext_indexInv (r : ℚ) (ok : Bool) (s : PlayerState) (h : IndexInv s)
    (hr0 : 0 ≤ r) (hr1 : r < 1) : IndexInv (playNext r ok s).1 := by
  by_cases hq : s.queue.length = 0
  · simp only [playNext, if_pos hq]
    exact h
  · have hnpos : 0 < (s.queue.length : Int) := by
      exact_mod_cast Nat.pos_of_ne_zero hq
    cases hsh : s.isShuffled
    · have hidx : 0 ≤ (s.currentIndex + 1).tmod (s.queue.length : Int) ∧
          (s.currentIndex + 1).tmod (s.queue.length : Int) < (s.queue.length : Int) := by
        rcases h with hm | ⟨hge, hlt⟩
        · rw [hm]
          norm_num [Int.zero_tmod]
          exact_mod_cast hnpos
        · exact ⟨Int.tmod_nonneg _ (by omega), Int.tmod_lt_of_pos _ hnpos⟩
      simp only [playNext, if_neg hq, hsh, Bool.false_eq_true, if_false]
      exact loadTrack_some_indexInv _ _ _ _ _ (by omega)
    · have hfl0 : 0 ≤ ⌊r * ((s.queue.length : Int) : ℚ)⌋ :=
        Int.floor_nonneg.mpr (mul_nonneg hr0 (by positivity))
      have hfl1 : ⌊r * ((s.queue.length : Int) : ℚ)⌋ < (s.queue.length : Int) := by
        rw [Int.floor_lt]
        have : ((s.queue.length : Int) : ℚ) > 0 := by exact_mod_cast hnpos
        exact lt_of_lt_of_le (mul_lt_of_lt_one_left this hr1) (by push_cast; exact le_refl _)
      simp only [playNext, if_neg hq, hsh, if_true]
      exact loadTrack_some_indexInv _ _ _ _ _ (by omega)

/-- `playPrevious` preserves `IndexInv`. -/
lemma playPrevious_indexInv (ok : Bool) (s : PlayerState) (h : IndexInv s) :
    IndexInv (playPrevious ok s).1 := by
  by_cases hq : s.queue.length = 0
  · simp only [playPrevious, if_pos hq]
    exact h
  · by_cases h3 : 3 < s.audio.currentTime
    · simp only [playPrevious, if_neg hq, if_pos h3]
      exact indexInv_of_fields h rfl rfl
    · have hnpos : 0 < (s.queue.length : Int) := by
        exact_mod_cast Nat.pos_of_ne_zero hq
      have hidx : 0 ≤ (s.currentIndex - 1 + (s.queue.length : Int)).tmod (s.queue.length : Int) ∧
          (s.currentIndex - 1 + (s.queue.length : Int)).tmod (s.queue.length : Int) <
            (s.queue.length : Int) := by
        rcases h with hm | ⟨hge, hlt⟩
        · by_cases h1 : (s.queue.length : Int) = 1
          · rw [hm, h1, Int.tmod_one]
            exact ⟨le_refl 0, by norm_num⟩
          · exact ⟨Int.tmod_nonneg _ (by omega), Int.tmod_lt_of_pos _ hnpos⟩
        · exact ⟨Int.tmod_nonneg _ (by omega), Int.tmod_lt_of_pos _ hnpos⟩
      simp only [playPrevious, if_neg hq, if_neg h3]
      exact loadTrack_some_indexInv _ _ _ _ _ (by omega)

/-- `handleTrackEnd` preserves `IndexInv`. -/
lemma handleTrackEnd_indexInv (r : ℚ) (ok : Bool) (s : PlayerState) (h : IndexInv s)
    (hr0 : 0 ≤ r) (hr1 : r < 1) : IndexInv (handleTrackEnd r ok s).1 := by
  by_cases h1 : s.repeatMode = RepeatMode.one
  · simp only [handleTrackEnd, if_pos h1, play_fst]
    cases ok
    · exact indexInv_of_fields h rfl rfl
    · exact indexInv_of_fields h rfl rfl
  · by_cases h2 : s.repeatMode = RepeatMode.all ∨ s.currentIndex < (s.queue.length : Int) - 1
    · simp only [handleTrackEnd, if_neg h1, if_pos h2]
      exact playNext_indexInv r ok s h hr0 hr1
    · simp only [handleTrackEnd, if_neg h1, if_neg h2]
      exact indexInv_of_fields h rfl rfl

end IndexInvHelpers

/-- C7: `currentIndex` is `-1` or a valid index into the queue, initially and
after every controller operation, with `loadTrack`'s explicit-queue form used
under its documented precondition `startIndex < queue.length`. -/
theorem c7_currentIndex_invariant :
    IndexInv MusicPlayer.initState ∧
    (∀ s : PlayerState, IndexInv s →
      (∀ (t : Track) (Q : List Track) (i : Nat) (ok : Bool), i < Q.length →
        IndexInv (MusicPlayer.loadTrack t (some Q) i ok s).1) ∧
      (∀ (t : Track) (i : Nat) (ok : Bool),
        IndexInv (MusicPlayer.loadTrack t none i ok s).1) ∧
      (∀ (r : ℚ) (ok : Bool), 0 ≤ r → r < 1 →
        IndexInv (MusicPlayer.playNext r ok s).1) ∧
      (∀ ok, IndexInv (MusicPlayer.playPrevious ok s).1) ∧
      (∀ (r : ℚ) (ok : Bool), 0 ≤ r → r < 1 →
        IndexInv (MusicPlayer.handleTrackEnd r ok s).1) ∧
      (∀ ok, IndexInv (MusicPlayer.play ok s).1) ∧
      IndexInv (MusicPlayer.pause s) ∧
      (∀ ok, IndexInv (MusicPlayer.togglePlayPause ok s).1) ∧
      IndexInv (MusicPlayer.toggleShuffle s).1 ∧
      IndexInv (MusicPlayer.cycleRepeatMode s).1 ∧
      (∀ v, IndexInv (MusicPlayer.setVolume v s)) ∧
      IndexInv (MusicPlayer.toggleMute s) ∧
      IndexInv (MusicPlayer.handleKeyArrowUp s) ∧
      IndexInv (MusicPlayer.handleKeyArrowDown s)) := by
  refine ⟨Or.inl rfl, ?_⟩
  intro s hs
  refine ⟨fun t Q i ok hi => loadTrack_some_indexInv t Q i ok s hi,
    fun t i ok => loadTrack_none_indexInv t i ok s,
    fun r ok hr0 hr1 => playNext_indexInv r ok s hs hr0 hr1,
    fun ok => playPrevious_indexInv ok s hs,
    fun r ok hr0 hr1 => handleTrackEnd_indexInv r ok s hs hr0 hr1,
    ?_, indexInv_of_fields hs rfl rfl, ?_,
    indexInv_of_fields hs rfl rfl, indexInv_of_fields hs rfl rfl,
    fun v => indexInv_of_fields hs rfl rfl, ?_,
    indexInv_of_fields hs rfl rfl, indexInv_of_fields hs rfl rfl⟩
  · intro ok
    rw [play_fst]
    cases ok
    · exact hs
    · exact indexInv_of_fields hs rfl rfl
  · intro ok
    by_cases hp : s.isPlaying
    · simp only [MusicPlayer.togglePlayPause, if_pos hp]
      exact indexInv_of_fields hs rfl rfl
    · simp only [MusicPlayer.togglePlayPause, if_neg hp]
      rw [play_fst]
      cases ok
      · exact hs
      · exact indexInv_of_fields hs rfl rfl
  · by_cases hv : 0 < s.audio.volume
    · simp only [MusicPlayer.toggleMute, if_pos hv]
      exact indexInv_of_fields hs rfl rfl
    · simp only [MusicPlayer.toggleMute, if_neg hv]
      exact indexInv_of_fields hs rfl rfl

/-- Witness for C7: the invariant survives a concrete `loadTrack` with an
in-range start index from the initial state, and a concrete `playPrevious`
from the `[A,B,C]` state. -/
theorem c7_currentIndex_invariant_witness :
    IndexInv (MusicPlayer.loadTrack trackA (some [trackA, trackB]) 1 true
      MusicPlayer.initState).1 ∧
    IndexInv (MusicPlayer.playPrevious true stateABC).1 := by
  have h := c7_currentIndex_invariant
  refine ⟨(h.2 MusicPlayer.initState h.1).1 trackA [trackA, trackB] 1 true (by norm_num), ?_⟩
  have hABC : IndexInv stateABC :=
    Or.inr ⟨by norm_num [stateABC], by norm_num [stateABC]⟩
  exact (h.2 stateABC hABC).2.2.2.1 true

/-- C5: `handleTrackEnd` implements the three-way repeat policy on a state
with a loaded track: repeat-one rewinds and calls `play` with `currentIndex`
untouched; repeat-all or a non-final index hands off to `playNext`; repeat-off
at the last index pauses and rewinds without advancing. -/
theorem c5_handleTrackEnd_repeat_policy (s : PlayerState) (t : Track) (r : ℚ)
    (ok : Bool) (ht : s.currentTrack = some t) :
    (s.repeatMode = RepeatMode.one →
      MusicPlayer.handleTrackEnd r ok s =
        MusicPlayer.play ok { s with audio := { s.audio with currentTime := 0 } } ∧
      (MusicPlayer.handleTrackEnd r ok s).1.currentIndex = s.currentIndex ∧
      (MusicPlayer.handleTrackEnd r ok s).1.audio.currentTime = 0) ∧
    (s.repeatMode ≠ RepeatMode.one →
      (s.repeatMode = RepeatMode.all ∨ s.currentIndex < (s.queue.length : Int) - 1) →
      MusicPlayer.handleTrackEnd r ok s = MusicPlayer.playNext r ok s) ∧
    (s.repeatMode = RepeatMode.off →
      s.currentIndex = (s.queue.length : Int) - 1 →
      MusicPlayer.handleTrackEnd r ok s =
        ({ s with isPlaying := false,
                  audio := { s.audio with currentTime := 0 } }, []) ∧
      (MusicPlayer.handleTrackEnd r ok s).1.currentIndex = s.currentIndex ∧
      (MusicPlayer.handleTrackEnd r ok s).1.isPlaying = false ∧
      (MusicPlayer.handleTrackEnd r ok s).1.audio.currentTime = 0) := by
  refine ⟨?_, ?_, ?_⟩
  · intro h1
    have heq : MusicPlayer.handleTrackEnd r ok s =
        MusicPlayer.play ok { s with audio := { s.audio with currentTime := 0 } } := by
      simp only [MusicPlayer.handleTrackEnd, if_pos h1]
    refine ⟨heq, ?_, ?_⟩
    · rw [heq, play_fst]
      cases ok
      · rfl
      · rfl
    · rw [heq, play_fst]
      cases ok
      · rfl
      · rfl
  · intro h1 h2
    simp only [MusicPlayer.handleTrackEnd, if_neg h1, if_pos h2]
  · intro hoff hlast
    have h1 : s.repeatMode ≠ RepeatMode.one := by
      rw [hoff]
      intro h
      exact RepeatMode.noConfusion h
    have h2 : ¬(s.repeatMode = RepeatMode.all ∨
        s.currentIndex < (s.queue.length : Int) - 1) := by
      rintro (hall | hlt)
      · rw [hoff] at hall
        exact RepeatMode.noConfusion hall
      · omega
    have heq : MusicPlayer.handleTrackEnd r ok s =
        ({ s with isPlaying := false,
                  audio := { s.audio with currentTime := 0 } }, []) := by
      simp only [MusicPlayer.handleTrackEnd, if_neg h1, if_neg h2]
      rfl
    exact ⟨heq, by rw [heq], by rw [heq], by rw [heq]⟩

/-- Witness for C5: from `[A,B,C]` at the last index, repeat-one replays C in
place, and repeat-off pauses with position 0. -/
theorem c5_handleTrackEnd_repeat_policy_witness :
    (MusicPlayer.handleTrackEnd 0 true
        { stateABC with repeatMode := RepeatMode.one }).1.currentIndex =
      stateABC.currentIndex ∧
    MusicPlayer.handleTrackEnd 0 true stateABC =
      ({ stateABC with
          isPlaying := false
          audio := { stateABC.audio with currentTime := 0 } }, []) := by
  have hone := (c5_handleTrackEnd_repeat_policy
    { stateABC with repeatMode := RepeatMode.one } trackC 0 true rfl).1 rfl
  have hoff := (c5_handleTrackEnd_repeat_policy stateABC trackC 0 true rfl).2.2 rfl
    (by norm_num [stateABC])
  exact ⟨hone.2.1, hoff.1⟩

/-- C3: with shuffle off, `playNext` on a non-empty queue advances
`currentIndex` to `(currentIndex + 1) mod n`, keeps the queue element-wise
identical, loads the entry at the new index, visits indices cyclically over
repeated calls, and is a no-op on an empty queue. -/
theorem c3_playNext_sequential_cycles :
    (∀ (s : PlayerState) (r : ℚ) (ok : Bool), s.queue.length = 0 →
      MusicPlayer.playNext r ok s = (s, [])) ∧
    (∀ (s : PlayerState) (r : ℚ) (ok : Bool), s.isShuffled = false →
      0 ≤ s.currentIndex → s.currentIndex < s.queue.length →
      (MusicPlayer.playNext r ok s).1.currentIndex =
        (s.currentIndex + 1) % (s.queue.length : Int) ∧
      (MusicPlayer.playNext r ok s).1.queue = s.queue ∧
      (MusicPlayer.playNext r ok s).1.currentTrack =
        some (s.queue.getD (((s.currentIndex + 1) % (s.queue.length : Int)).toNat)
          defaultTrack)) ∧
    (∀ (s : PlayerState) (oks : Nat → Bool), s.isShuffled = false →
      0 ≤ s.currentIndex → s.currentIndex < s.queue.length →
      ∀ k, (playNextIter oks s k).currentIndex =
          (s.currentIndex + k) % (s.queue.length : Int) ∧
        (playNextIter oks s k).queue = s.queue) := by
  refine ⟨?_, ?_, ?_⟩
  · intro s r ok h
    simp [MusicPlayer.playNext, h]
  · intro s r ok hsh h0 h1
    have hne : s.queue.length ≠ 0 := by
      intro h
      rw [h] at h1
      exact absurd (lt_of_le_of_lt h0 h1) (by norm_num)
    have hconv : (s.currentIndex + 1).tmod (s.queue.length : Int) =
        (s.currentIndex + 1) % (s.queue.length : Int) :=
      Int.tmod_eq_emod (by omega) (Int.natCast_nonneg _)
    have step := playNext_step r ok s hsh hne (by omega)
    exact ⟨step.1.trans hconv, step.2.1, step.2.2.2.trans (by rw [hconv])⟩
  · intro s oks hsh h0 h1 k
    exact ⟨(playNextIter_spec oks s hsh h0 h1 k).1, (playNextIter_spec oks s hsh h0 h1 k).2.1⟩

/-- Witness for C3: from `[A,B,C]` at index 2 one `playNext` wraps to index 0
and loads track A, and three iterated calls return to index 2. -/
theorem c3_playNext_sequential_cycles_witness :
    stateABC.isShuffled = false ∧
    (0 ≤ stateABC.currentIndex ∧ stateABC.currentIndex < stateABC.queue.length) ∧
    (MusicPlayer.playNext 0 true stateABC).1.currentIndex =
      (stateABC.currentIndex + 1) % (stateABC.queue.length : Int) ∧
    (playNextIter (fun _ => true) stateABC 3).currentIndex =
      (stateABC.currentIndex + (3:Nat)) % (stateABC.queue.length : Int) := by
  have h := c3_playNext_sequential_cycles
  refine ⟨rfl, ⟨by norm_num [stateABC], by norm_num [stateABC]⟩, ?_, ?_⟩
  · exact (h.2.1 stateABC 0 true rfl (by norm_num [stateABC]) (by norm_num [stateABC])).1
  · exact (h.2.2 stateABC (fun _ => true) rfl (by norm_num [stateABC])
      (by norm_num [stateABC]) 3).1

/-- C4: `playPrevious` on a non-empty queue restarts the current track when
more than 3 seconds have elapsed (position 0, nothing else changes); with at
most 3 seconds elapsed it steps `currentIndex` back cyclically and loads that
entry with the queue preserved; on an empty queue it is a no-op. -/
theorem c4_playPrevious_spec :
    (∀ (s : PlayerState) (ok : Bool), s.queue.length = 0 →
      MusicPlayer.playPrevious ok s = (s, [])) ∧
    (∀ (s : PlayerState) (ok : Bool), s.queue.length ≠ 0 →
      3 < s.audio.currentTime →
      MusicPlayer.playPrevious ok s =
        ({ s with audio := { s.audio with currentTime := 0 } }, [])) ∧
    (∀ (s : PlayerState) (ok : Bool), s.queue.length ≠ 0 →
      s.audio.currentTime ≤ 3 →
      0 ≤ s.currentIndex → s.currentIndex < s.queue.length →
      (MusicPlayer.playPrevious ok s).1.currentIndex =
        (s.currentIndex - 1 + s.queue.length) % (s.queue.length : Int) ∧
      (MusicPlayer.playPrevious ok s).1.queue = s.queue ∧
      (MusicPlayer.playPrevious ok s).1.currentTrack =
        some (s.queue.getD
          (((s.currentIndex - 1 + s.queue.length) % (s.queue.length : Int)).toNat)
          defaultTrack)) := by
  refine ⟨?_, ?_, ?_⟩
  · intro s ok h
    simp [MusicPlayer.playPrevious, h]
  · intro s ok hne h3
    simp [MusicPlayer.playPrevious, hne, h3]
  · intro s ok hne hle h0 h1
    have hnpos : 0 < (s.queue.length : Int) := lt_of_le_of_lt h0 h1
    have ha : 0 ≤ s.currentIndex - 1 + (s.queue.length : Int) := by omega
    have hconv : (s.currentIndex - 1 + (s.queue.length : Int)).tmod (s.queue.length : Int) =
        (s.currentIndex - 1 + s.queue.length) % (s.queue.length : Int) :=
      Int.tmod_eq_emod ha (Int.natCast_nonneg _)
    simp only [MusicPlayer.playPrevious, if_neg hne, if_neg (not_lt.mpr hle)]
    rw [hconv]
    have hmodnn : 0 ≤ (s.currentIndex - 1 + s.queue.length) % (s.queue.length : Int) :=
      Int.emod_nonneg _ (ne_of_gt hnpos)
    refine ⟨?_, ?_, ?_⟩
    · rw [(loadTrack_some_fields _ _ _ _ _).2.1, Int.toNat_of_nonneg hmodnn]
    · exact (loadTrack_some_fields _ _ _ _ _).1
    · exact (loadTrack_some_fields _ _ _ _ _).2.2.1

/-- Witness for C4: with queue `[A,B,C]` at index 2 and 10 seconds elapsed,
`playPrevious` only rewinds; at 2 seconds elapsed it steps back to index 1. -/
theorem c4_playPrevious_spec_witness :
    (MusicPlayer.playPrevious true
        { stateABC with audio := { stateABC.audio with currentTime := 10 } } =
      ({ stateABC with audio := { stateABC.audio with currentTime := 0 } }, [])) ∧
    (MusicPlayer.playPrevious true
        { stateABC with audio := { stateABC.audio with currentTime := 2 } }).1.currentIndex =
      ({ stateABC with audio := { stateABC.audio with currentTime := 2 } }.currentIndex - 1 +
          { stateABC with audio := { stateABC.audio with currentTime := 2 } }.queue.length) %
        ({ stateABC with audio := { stateABC.audio with currentTime := 2 } }.queue.length : Int) := by
  have h := c4_playPrevious_spec
  constructor
  · exact h.2.1 _ true (by norm_num [stateABC]) (by norm_num)
  · exact (h.2.2 _ true (by norm_num [stateABC]) (by norm_num)
      (by norm_num [stateABC]) (by norm_num [stateABC])).1

/-- C6: double `toggleMute` restores exactly the volume last set through
`setVolume` — `setVolume` stores its (in-range) argument, any state with
stored volume `v` and audible output returns to output `v` after two toggles,
the first toggle silences the output without touching the stored field, and
this holds even when a `setVolume` call intervened between an earlier mute
and the toggles. -/
theorem c6_toggleMute_restores_setVolume (s : PlayerState) (v : ℚ)
    (h0 : 0 ≤ v) (h1 : v ≤ 1) :
    (MusicPlayer.setVolume v s).volume = v ∧
    (∀ s' : PlayerState, s'.volume = v → 0 < s'.audio.volume →
      (MusicPlayer.toggleMute (MusicPlayer.toggleMute s')).audio.volume = v ∧
      (MusicPlayer.toggleMute s').audio.volume = 0 ∧
      (MusicPlayer.toggleMute s').volume = v) ∧
    (0 < v →
      (MusicPlayer.toggleMute (MusicPlayer.toggleMute
        (MusicPlayer.setVolume v (MusicPlayer.toggleMute s)))).audio.volume = v) := by
  have hclamp : max 0 (min 1 v) = v := by
    rw [min_eq_right h1, max_eq_right h0]
  have hset : ∀ s' : PlayerState, (MusicPlayer.setVolume v s').volume = v := fun s' => by
    simp [MusicPlayer.setVolume, hclamp]
  have hsetOut : ∀ s' : PlayerState, (MusicPlayer.setVolume v s').audio.volume = v :=
    fun s' => by simp [MusicPlayer.setVolume, hclamp]
  have hdouble : ∀ s' : PlayerState, s'.volume = v → 0 < s'.audio.volume →
      (MusicPlayer.toggleMute (MusicPlayer.toggleMute s')).audio.volume = v ∧
      (MusicPlayer.toggleMute s').audio.volume = 0 ∧
      (MusicPlayer.toggleMute s').volume = v := by
    intro s' hv hpos
    have hmuted : (MusicPlayer.toggleMute s').audio.volume = 0 := by
      simp [MusicPlayer.toggleMute, if_pos hpos]
    have hkeep : (MusicPlayer.toggleMute s').volume = v := by
      simp [MusicPlayer.toggleMute, if_pos hpos, hv]
    refine ⟨?_, hmuted, hkeep⟩
    rw [MusicPlayer.toggleMute, if_neg (by rw [hmuted]; exact lt_irrefl 0)]
    exact hkeep
  refine ⟨hset s, hdouble, ?_⟩
  intro hv0
  exact (hdouble (MusicPlayer.setVolume v (MusicPlayer.toggleMute s))
    (hset _) (by rw [hsetOut]; exact hv0)).1

/-- Witness for C6: from the freshly initialised controller with its default
stored volume 0.8, muting and unmuting lands the output back on 0.8. -/
theorem c6_toggleMute_restores_setVolume_witness :
    (MusicPlayer.toggleMute (MusicPlayer.toggleMute MusicPlayer.initState)).audio.volume = 4/5 ∧
    (MusicPlayer.toggleMute MusicPlayer.initState).audio.volume = 0 ∧
    (MusicPlayer.toggleMute MusicPlayer.initState).volume = 4/5 :=
  (c6_toggleMute_restores_setVolume MusicPlayer.initState (4/5)
    (by norm_num) (by norm_num)).2.1 MusicPlayer.initState rfl
    (by norm_num [MusicPlayer.initState, MusicPlayer.initializePlayer])

/-- C10: in every reachable state the output volume is 0 or equals the stored
`volume` field — it holds initially, every operation preserves it, each
output-writing operation (`setVolume`, the arrow-key handlers,
`initializePlayer`) re-equates the two, and `toggleMute` is the one operation
that makes them differ, zeroing the output and leaving the stored field. -/
theorem c10_output_volume_invariant :
    VolInv MusicPlayer.initState ∧
    (∀ v s, (MusicPlayer.setVolume v s).audio.volume = (MusicPlayer.setVolume v s).volume) ∧
    (∀ s, (MusicPlayer.handleKeyArrowUp s).audio.volume = (MusicPlayer.handleKeyArrowUp s).volume) ∧
    (∀ s, (MusicPlayer.handleKeyArrowDown s).audio.volume = (MusicPlayer.handleKeyArrowDown s).volume) ∧
    (∀ s, (MusicPlayer.initializePlayer s).audio.volume = (MusicPlayer.initializePlayer s).volume) ∧
    (∀ s : PlayerState, 0 < s.audio.volume →
      (MusicPlayer.toggleMute s).audio.volume = 0 ∧
      (MusicPlayer.toggleMute s).volume = s.volume) ∧
    (∀ s : PlayerState, VolInv s →
      VolInv (MusicPlayer.toggleMute s) ∧
      (∀ ok, VolInv (MusicPlayer.play ok s).1) ∧
      VolInv (MusicPlayer.pause s) ∧
      (∀ ok, VolInv (MusicPlayer.togglePlayPause ok s).1) ∧
      (∀ t q i ok, VolInv (MusicPlayer.loadTrack t q i ok s).1) ∧
      (∀ r ok, VolInv (MusicPlayer.playNext r ok s).1) ∧
      (∀ ok, VolInv (MusicPlayer.playPrevious ok s).1) ∧
      (∀ r ok, VolInv (MusicPlayer.handleTrackEnd r ok s).1) ∧
      VolInv (MusicPlayer.toggleShuffle s).1 ∧
      VolInv (MusicPlayer.cycleRepeatMode s).1 ∧
      (∀ v, VolInv (MusicPlayer.setVolume v s)) ∧
      VolInv (MusicPlayer.handleKeyArrowUp s) ∧
      VolInv (MusicPlayer.handleKeyArrowDown s)) := by
  have pair : ∀ s : PlayerState,
      (s.audio.volume = 0 ∨ s.audio.volume = s.volume) → VolInv s := fun s h => h
  refine ⟨Or.inr rfl, fun v s => rfl, fun s => rfl, fun s => rfl, fun s => rfl, ?_, ?_⟩
  · intro s hpos
    exact ⟨by simp [MusicPlayer.toggleMute, if_pos hpos],
      by simp [MusicPlayer.toggleMute, if_pos hpos]⟩
  · intro s hs
    have hsame : ∀ s' : PlayerState,
        s'.audio.volume = s.audio.volume → s'.volume = s.volume → VolInv s' := by
      intro s' h1 h2
      rw [VolInv, h1, h2]
      exact hs
    refine ⟨?_, ?_, hs, ?_, ?_, ?_, ?_, ?_, hs, hs, fun v => Or.inr rfl, Or.inr rfl, Or.inr rfl⟩
    · by_cases hpos : 0 < s.audio.volume
      · exact Or.inl (by simp [MusicPlayer.toggleMute, if_pos hpos])
      · exact Or.inr (by simp [MusicPlayer.toggleMute, if_neg hpos])
    · intro ok
      rw [play_fst]
      cases ok
      · exact hs
      · exact hs
    · intro ok
      by_cases hp : s.isPlaying
      · simp only [MusicPlayer.togglePlayPause, if_pos hp]
        exact hs
      · simp only [MusicPlayer.togglePlayPause, if_neg hp]
        rw [play_fst]
        cases ok
        · exact hs
        · exact hs
    · intro t q i ok
      exact hsame _ (loadTrack_volumes t q i ok s).1 (loadTrack_volumes t q i ok s).2
    · intro r ok
      exact hsame _ (playNext_volumes r ok s).1 (playNext_volumes r ok s).2
    · intro ok
      exact hsame _ (playPrevious_volumes ok s).1 (playPrevious_volumes ok s).2
    · intro r ok
      exact hsame _ (handleTrackEnd_volumes r ok s).1 (handleTrackEnd_volumes r ok s).2

/-- Witness for C10: the invariant holds after muting the fresh controller,
and `toggleMute` from the audible initial state zeroes the output while the
stored 0.8 survives. -/
theorem c10_output_volume_invariant_witness :
    VolInv (MusicPlayer.toggleMute MusicPlayer.initState) ∧
    (MusicPlayer.toggleMute MusicPlayer.initState).audio.volume = 0 ∧
    (MusicPlayer.toggleMute MusicPlayer.initState).volume = MusicPlayer.initState.volume := by
  have h := c10_output_volume_invariant
  have hmute := h.2.2.2.2.2.1 MusicPlayer.initState (by norm_num [MusicPlayer.initState, MusicPlayer.initializePlayer])
  exact ⟨(h.2.2.2.2.2.2 MusicPlayer.initState (Or.inr rfl)).1, hmute.1, hmute.2⟩

/-- Witness for C8: the general clause applied at the concrete fractional
input 65.5 seconds. -/
theorem c8_formatTime_spec_witness :
    (0 : ℚ) < 131/2 ∧
      MusicPlayer.formatTime (some (131/2)) =
        toString ((⌊(131/2 : ℚ)⌋ : ℤ) / 60) ++ ":" ++
          MusicPlayer.pad2 (toString ((⌊(131/2 : ℚ)⌋ : ℤ) % 60)) :=
  ⟨by norm_num, c8_formatTime_spec.1 (131/2) (by norm_num)⟩

/-- Counterexample to C1 as stated: a state with a loaded track but
`isPlaying = true` (reachable by loading a new track while one is playing)
keeps `isPlaying = true` after a failed `play()`, because the catch block
never clears the flag. -/
theorem c1_play_failure_counterexample :
    ¬ (∀ s : PlayerState, (∃ t, s.currentTrack = some t) →
        (MusicPlayer.play false s).1.isPlaying = false) := by
  intro h
  have hb := h { stateABC with isPlaying := true } ⟨trackC, rfl⟩
  simp [MusicPlayer.play] at hb

/-- C1 (amended): when `play()`'s request fails on a state with a loaded
track, exactly one user-visible error toast is emitted, `currentTrack`,
`queue` and `currentIndex` are untouched, and `isPlaying` is left unchanged —
in particular the controller stays in Loaded-Paused whenever it was paused
before the attempt (the code never forces it to `false`). -/
theorem c1_play_failure_amended (s : PlayerState) (t : Track)
    (ht : s.currentTrack = some t) :
    (MusicPlayer.play false s).1.isPlaying = s.isPlaying ∧
    (s.isPlaying = false → (MusicPlayer.play false s).1.isPlaying = false) ∧
    (MusicPlayer.play false s).2.countP evIsToast = 1 ∧
    (MusicPlayer.play false s).1.currentTrack = s.currentTrack ∧
    (MusicPlayer.play false s).1.queue = s.queue ∧
    (MusicPlayer.play false s).1.currentIndex = s.currentIndex :=
  ⟨rfl, fun h => h, rfl, rfl, rfl, rfl⟩

/-- Witness for C1 (amended): from the paused `[A,B,C]` state a failed play
keeps the controller paused and toasts exactly once. -/
theorem c1_play_failure_amended_witness :
    (MusicPlayer.play false stateABC).1.isPlaying = stateABC.isPlaying ∧
    (MusicPlayer.play false stateABC).2.countP evIsToast = 1 :=
  ⟨(c1_play_failure_amended stateABC trackC rfl).1,
    (c1_play_failure_amended stateABC trackC rfl).2.2.1⟩

/-- Counterexample to C2 as stated: in a concrete `loadTrack` run the
`trackChanged` dispatch does not precede the settlement of the play request —
the code dispatches only after `await this.play()` resolves. -/
theorem c2_trackChanged_counterexample :
    ¬ (∀ (t : Track) (q : Option (List Track)) (i : Nat) (ok : Bool)
        (s : PlayerState),
        emittedBefore evIsTrackChanged evIsPlaySettled
          (MusicPlayer.loadTrack t q i ok s).2 = true) := by
  intro h
  have hb := h trackA none 0 true MusicPlayer.initState
  simp [MusicPlayer.loadTrack, MusicPlayer.loadTrackResume, MusicPlayer.loadTrackCont,
    MusicPlayer.play, emittedBefore, evIsTrackChanged, evIsPlaySettled] at hb

/-- C2 (amended): the `trackChanged` notification is emitted only after the
asynchronous play request settles, but it is emitted on every `loadTrack`
run, success or failure alike, carrying the new `currentTrack`. -/
theorem c2_trackChanged_after_settle_amended (t : Track)
    (q : Option (List Track)) (i : Nat) (ok : Bool) (s : PlayerState) :
    emittedBefore evIsPlaySettled evIsTrackChanged
      (MusicPlayer.loadTrack t q i ok s).2 = true ∧
    Ev.trackChanged (some t) ∈ (MusicPlayer.loadTrack t q i ok s).2 := by
  cases ok <;> cases q <;>
    simp [MusicPlayer.loadTrack, MusicPlayer.loadTrackResume,
      MusicPlayer.loadTrackCont, MusicPlayer.loadTrackSync, MusicPlayer.play,
      emittedBefore, evIsTrackChanged, evIsPlaySettled]

/-- C9: when a second `loadTrack` runs its synchronous part while the first
call's play request is still pending, the final state reflects the second
call's track, queue and index, whichever order the two pending play results
later arrive in and whatever their outcomes — the stale resume only touches
`isPlaying` and the event log, never the track/queue bindings. -/
theorem c9_loadTrack_supersession (s0 : PlayerState) (t1 t2 : Track)
    (q1 q2 : Option (List Track)) (i1 i2 : Nat) (ok1 ok2 : Bool)
    (firstResumeFirst : Bool) :
    (if firstResumeFirst
      then (MusicPlayer.loadTrackResume ok2
        (MusicPlayer.loadTrackResume ok1
          (MusicPlayer.loadTrackSync t2 q2 i2
            (MusicPlayer.loadTrackSync t1 q1 i1 s0))).1).1
      else (MusicPlayer.loadTrackResume ok1
        (MusicPlayer.loadTrackResume ok2
          (MusicPlayer.loadTrackSync t2 q2 i2
            (MusicPlayer.loadTrackSync t1 q1 i1 s0))).1).1).currentTrack =
        some t2 ∧
    (if firstResumeFirst
      then (MusicPlayer.loadTrackResume ok2
        (MusicPlayer.loadTrackResume ok1
          (MusicPlayer.loadTrackSync t2 q2 i2
            (MusicPlayer.loadTrackSync t1 q1 i1 s0))).1).1
      else (MusicPlayer.loadTrackResume ok1
        (MusicPlayer.loadTrackResume ok2
          (MusicPlayer.loadTrackSync t2 q2 i2
            (MusicPlayer.loadTrackSync t1 q1 i1 s0))).1).1).queue =
        (match q2 with | some Q => Q | none => [t2]) ∧
    (if firstResumeFirst
      then (MusicPlayer.loadTrackResume ok2
        (MusicPlayer.loadTrackResume ok1
          (MusicPlayer.loadTrackSync t2 q2 i2
            (MusicPlayer.loadTrackSync t1 q1 i1 s0))).1).1
      else (MusicPlayer.loadTrackResume ok1
        (MusicPlayer.loadTrackResume ok2
          (MusicPlayer.loadTrackSync t2 q2 i2
            (MusicPlayer.loadTrackSync t1 q1 i1 s0))).1).1).currentIndex =
        (match q2 with | some _ => (i2 : Int) | none => 0) ∧
    (if firstResumeFirst
      then (MusicPlayer.loadTrackResume ok2
        (MusicPlayer.loadTrackResume ok1
          (MusicPlayer.loadTrackSync t2 q2 i2
            (MusicPlayer.loadTrackSync t1 q1 i1 s0))).1).1
      else (MusicPlayer.loadTrackResume ok1
        (MusicPlayer.loadTrackResume ok2
          (MusicPlayer.loadTrackSync t2 q2 i2
            (MusicPlayer.loadTrackSync t1 q1 i1 s0))).1).1).audio.src =
        "http://localhost:3000" ++ t2.url := by
  cases firstResumeFirst <;> cases q2 <;> cases ok1 <;> cases ok2 <;>
    exact ⟨rfl, rfl, rfl, rfl⟩
